import Mathlib

/-!
Verification of the scopehal Tektronix driver headers
(`TektronixOscilloscope.h`, `Waveform.h`) against their
natural-language specification.

The header files give the full bodies of the channel classifiers
(`IsAnalog` / `IsDigital` / `IsSpectrum`) and of the `Waveform`
container; those are embedded directly from the source.  The bodies
of the acquisition, cache, decode and trigger methods are declared
but not defined in the headers, so those operations are modelled
from the specification text, as marked in their doc comments.

Channel indices and counts are `size_t` in the source; they are
embedded as `Nat` (channel counts are tiny, so wraparound never
matters for these properties).  `double` fields that are only stored
and retrieved, never computed with, are embedded as `Int`.
-/

namespace Scopehal

/-! ## Channel index partition (TektronixOscilloscope.h lines 277, 362, 368) -/

/-- The three configuration integers fixed at connect time:
`m_analogChannelCount`, `m_digitalChannelBase`, `m_spectrumChannelBase`. -/
structure TekConfig where
  analogChannelCount : Nat
  digitalChannelBase : Nat
  spectrumChannelBase : Nat
  deriving DecidableEq, Repr

/-- `bool IsAnalog(size_t index) { return index < m_analogChannelCount; }`
(TektronixOscilloscope.h line 399). -/
def IsAnalog (c : TekConfig) (index : Nat) : Bool :=
  index < c.analogChannelCount

/-- `bool IsDigital(size_t index)` (TektronixOscilloscope.h line 409):
returns false below `m_digitalChannelBase`, false at or above
`m_digitalChannelBase + 8*m_analogChannelCount`, true otherwise. -/
def IsDigital (c : TekConfig) (index : Nat) : Bool :=
  if index < c.digitalChannelBase then false
  else if index ≥ c.digitalChannelBase + 8 * c.analogChannelCount then false
  else true

/-- `bool IsSpectrum(size_t index)` (TektronixOscilloscope.h line 425):
returns false below `m_spectrumChannelBase`, false at or above
`m_spectrumChannelBase + m_analogChannelCount`, true otherwise. -/
def IsSpectrum (c : TekConfig) (index : Nat) : Bool :=
  if index < c.spectrumChannelBase then false
  else if index ≥ c.spectrumChannelBase + c.analogChannelCount then false
  else true

/-- Modelled from the spec: the total flat channel count is the end of the
last (spectrum) range, `[spectrumBase, spectrumBase + analogCount)`; the
header does not define a total-count member. -/
def totalChannelCount (c : TekConfig) : Nat :=
  c.spectrumChannelBase + c.analogChannelCount

/-- Modelled from the spec: the connect-time layout, "an ordered set of
contiguous integer ranges" — digital channels start right after the analog
ones and spectrum channels right after the digital ones; connect-time
initialization code is not in the headers. -/
def ContiguousLayout (c : TekConfig) : Prop :=
  c.digitalChannelBase = c.analogChannelCount ∧
  c.spectrumChannelBase = c.digitalChannelBase + 8 * c.analogChannelCount

/-- Number of the three classifiers that accept a given index. -/
def classifierCount (c : TekConfig) (i : Nat) : Nat :=
  (if IsAnalog c i then 1 else 0) +
  (if IsDigital c i then 1 else 0) +
  (if IsSpectrum c i then 1 else 0)

/-- C1 counterexample: with analog count 1, digital base 0 and spectrum
base 0, index 0 lies in `[0, totalChannelCount)` yet all three classifiers
accept it, so the ranges are not pairwise disjoint for every value of the
three configuration integers. -/
theorem c1_counterexample :
    let c : TekConfig := ⟨1, 0, 0⟩
    0 < totalChannelCount c ∧
    IsAnalog c 0 = true ∧ IsDigital c 0 = true ∧ IsSpectrum c 0 = true := by
  decide

/-- C1 (amended): under the connect-time contiguous layout (digital range
immediately after the analog range and spectrum range immediately after the
digital range), exactly one of the three classifiers accepts each index in
`[0, totalChannelCount)`: the ranges are pairwise disjoint and together
exactly cover `[0, totalChannelCount)`. -/
theorem channel_partition_exactly_one (c : TekConfig)
    (hlay : ContiguousLayout c) (i : Nat) (hi : i < totalChannelCount c) :
    classifierCount c i = 1 := by
  obtain ⟨h1, h2⟩ := hlay
  have hT : i < c.spectrumChannelBase + c.analogChannelCount := hi
  by_cases h3 : i < c.analogChannelCount <;>
  by_cases h4 : i < c.digitalChannelBase <;>
  by_cases h5 : i ≥ c.digitalChannelBase + 8 * c.analogChannelCount <;>
  by_cases h6 : i < c.spectrumChannelBase <;>
  by_cases h7 : i ≥ c.spectrumChannelBase + c.analogChannelCount <;>
  simp [classifierCount, IsAnalog, IsDigital, IsSpectrum, h3, h4, h5, h6, h7] <;>
  omega

/-- Witness for the amended C1: a 4-channel scope laid out contiguously,
probed at an analog, a digital and a spectrum index. -/
theorem channel_partition_exactly_one_witness :
    classifierCount ⟨4, 4, 36⟩ 2 = 1 ∧
    classifierCount ⟨4, 4, 36⟩ 10 = 1 ∧
    classifierCount ⟨4, 4, 36⟩ 37 = 1 :=
  ⟨channel_partition_exactly_one ⟨4, 4, 36⟩ ⟨rfl, rfl⟩ 2 (by decide),
   channel_partition_exactly_one ⟨4, 4, 36⟩ ⟨rfl, rfl⟩ 10 (by decide),
   channel_partition_exactly_one ⟨4, 4, 36⟩ ⟨rfl, rfl⟩ 37 (by decide)⟩

/-- C2: each classifier is exactly the membership test of its interval —
`IsAnalog` accepts `[0, analogCount)`, `IsDigital` accepts
`[digitalBase, digitalBase + 8*analogCount)`, and `IsSpectrum` accepts
`[spectrumBase, spectrumBase + analogCount)` — as a pure function of the
index and the three configuration integers. -/
theorem classifiers_are_interval_tests (c : TekConfig) (i : Nat) :
    IsAnalog c i = decide (i < c.analogChannelCount) ∧
    IsDigital c i =
      decide (c.digitalChannelBase ≤ i ∧
        i < c.digitalChannelBase + 8 * c.analogChannelCount) ∧
    IsSpectrum c i =
      decide (c.spectrumChannelBase ≤ i ∧
        i < c.spectrumChannelBase + c.analogChannelCount) := by
  refine ⟨rfl, ?_, ?_⟩ <;>
    simp only [IsDigital, IsSpectrum] <;>
    split_ifs <;> simp <;> omega

/-! ## Waveform containers (Waveform.h) -/

/-- `std::vector::resize(n)`: keep the first `n` elements and extend with
default-constructed elements.  For `EmptyConstructorWrapper<T>`
(Waveform.h line 47) the default constructor assigns nothing, so the new
slots hold indeterminate values; the free parameter `fill` stands for
those indeterminate contents. -/
def vecResize {α : Type} (l : List α) (n : Nat) (fill : α) : List α :=
  l.take n ++ List.replicate (n - l.length) fill

/-- `WaveformBase` (Waveform.h line 78): metadata plus the per-sample
offset and duration sequences.  `time_t`, `int64_t` and `double` fields
are embedded as `Int` (they are only stored, never computed with here). -/
structure WaveformBase where
  m_timescale : Int
  m_startTimestamp : Int
  m_startPicoseconds : Int
  m_triggerPhase : Int
  m_offsets : List Int
  m_durations : List Int
  deriving DecidableEq, Repr

/-- `WaveformBase()` (Waveform.h line 81): assigns `m_triggerPhase`,
`m_startTimestamp` and `m_startPicoseconds` to zero.  `m_timescale` is
never assigned, so it holds whatever the underlying memory held; the free
parameter `junk` stands for that indeterminate value.  The two vectors
default-construct to empty. -/
def WaveformBase.init (junk : Int) : WaveformBase :=
  { m_timescale := junk
    m_startTimestamp := 0
    m_startPicoseconds := 0
    m_triggerPhase := 0
    m_offsets := []
    m_durations := [] }

/-- `WaveformBase::clear` (Waveform.h line 121). -/
def WaveformBase.clear (w : WaveformBase) : WaveformBase :=
  { w with m_offsets := [], m_durations := [] }

/-- `WaveformBase::Resize` (Waveform.h line 127): resizes the offset and
duration vectors; new slots are uninitialized `EmptyConstructorWrapper`
values, represented by `fill`. -/
def WaveformBase.Resize (w : WaveformBase) (n : Nat) (fill : Int) :
    WaveformBase :=
  { w with
    m_offsets := vecResize w.m_offsets n fill
    m_durations := vecResize w.m_durations n fill }

/-- `Waveform<S>` (Waveform.h line 137): a `WaveformBase` plus the sample
payload vector `m_samples`. -/
structure Waveform (S : Type) where
  base : WaveformBase
  m_samples : List S

/-- `Waveform<S>::Resize` (Waveform.h line 145): resizes all three
vectors to `size`. -/
def Waveform.Resize {S : Type} (w : Waveform S) (n : Nat)
    (fillT : Int) (fillS : S) : Waveform S :=
  { base := w.base.Resize n fillT
    m_samples := vecResize w.m_samples n fillS }

/-- `Waveform<S>::clear` (Waveform.h line 152): empties all three
vectors. -/
def Waveform.clear {S : Type} (w : Waveform S) : Waveform S :=
  { base := w.base.clear, m_samples := [] }

/-- C9: `Waveform<S>::Resize(n)` leaves `m_offsets`, `m_durations` and
`m_samples` each with exactly `n` elements, and `clear()` leaves all
three empty, so after either operation the three per-sample sequences
have equal length. -/
theorem waveform_resize_clear_lengths {S : Type} (w : Waveform S) (n : Nat)
    (fillT : Int) (fillS : S) :
    (w.Resize n fillT fillS).base.m_offsets.length = n ∧
    (w.Resize n fillT fillS).base.m_durations.length = n ∧
    (w.Resize n fillT fillS).m_samples.length = n ∧
    (Waveform.clear w).base.m_offsets.length = 0 ∧
    (Waveform.clear w).base.m_durations.length = 0 ∧
    (Waveform.clear w).m_samples.length = 0 := by
  refine ⟨?_, ?_, ?_, rfl, rfl, rfl⟩ <;>
    simp [Waveform.Resize, WaveformBase.Resize, vecResize] <;> omega

/-- C10: the default `WaveformBase` constructor zeroes `m_triggerPhase`,
`m_startTimestamp` and `m_startPicoseconds` but never assigns
`m_timescale`, which therefore has no defined value (it equals whatever
junk the memory held, so two constructions can disagree); and `Resize`
leaves every newly added offset/duration entry equal to the arbitrary
fill value, i.e. uninitialized, because `EmptyConstructorWrapper` has an
empty default constructor. -/
theorem waveformbase_init_and_resize_uninit :
    (∀ junk : Int,
      (WaveformBase.init junk).m_triggerPhase = 0 ∧
      (WaveformBase.init junk).m_startTimestamp = 0 ∧
      (WaveformBase.init junk).m_startPicoseconds = 0 ∧
      (WaveformBase.init junk).m_timescale = junk) ∧
    (WaveformBase.init 0).m_timescale ≠ (WaveformBase.init 1).m_timescale ∧
    (∀ (w : WaveformBase) (n : Nat) (fill : Int) (k : Nat),
      w.m_offsets.length ≤ k → k < n →
      (w.Resize n fill).m_offsets.get? k = some fill) ∧
    (∀ (w : WaveformBase) (n : Nat) (fill : Int) (k : Nat),
      w.m_durations.length ≤ k → k < n →
      (w.Resize n fill).m_durations.get? k = some fill) := by
  refine ⟨fun junk => ⟨rfl, rfl, rfl, rfl⟩, by decide, ?_, ?_⟩ <;>
  · intro w n fill k hk hkn
    simp only [WaveformBase.Resize, vecResize]
    rw [List.get?_append_right (by simp; omega)]
    simp only [List.length_take]
    rw [List.get?_eq_get (by simp; omega)]
    simp

/-- Witness for C10: concrete evaluation of the constructor and of a
resize that adds uninitialized slots. -/
theorem waveformbase_init_and_resize_uninit_witness :
    ((WaveformBase.init 7).m_triggerPhase = 0 ∧
      (WaveformBase.init 7).m_timescale = 7) ∧
    ((WaveformBase.init 0).Resize 3 42).m_offsets.get? 1 = some 42 := by
  have h := waveformbase_init_and_resize_uninit
  exact ⟨⟨(h.1 7).1, (h.1 7).2.2.2⟩,
    h.2.2.1 (WaveformBase.init 0) 3 42 1 (by decide) (by decide)⟩

/-! ## Configuration cache (TektronixOscilloscope.h lines 295-316;
bodies of the getters/setters are not in the headers) -/

/-- Lookup in an association list modelling a `std::map` (first binding
wins; updates prepend). -/
def assocLookup (m : List (Nat × Int)) (k : Nat) : Option Int :=
  match m with
  | [] => none
  | (k', v) :: rest => if k' = k then some v else assocLookup rest k

/-- Driver-side state relevant to one cached per-channel property
(e.g. `m_channelOffsets`): the cache map plus the device's own value for
each channel.  Cached `float` values are embedded as `Int`: they are only
stored and returned verbatim, never computed with. -/
structure CacheState where
  cache : List (Nat × Int)
  device : Nat → Int

/-- Modelled from the spec: the body of `SetChannelOffset`-style setters
is not in the headers.  "a write sets the value and marks valid
immediately (write-through)": the value is sent to the device and the
cache entry is updated. -/
def cacheSet (s : CacheState) (k : Nat) (v : Int) : CacheState :=
  { cache := (k, v) :: s.cache
    device := fun c => if c = k then v else s.device c }

/-- Modelled from the spec: the body of `GetChannelOffset`-style getters
is not in the headers.  "get (fills from device if invalid, then
returns)": a cache hit is returned directly with zero device
round-trips; a miss performs exactly one round-trip and fills the cache.
Result: (value, new state, number of device round-trips performed). -/
def cacheGet (s : CacheState) (k : Nat) : Int × CacheState × Nat :=
  match assocLookup s.cache k with
  | some v => (v, s, 0)
  | none =>
      let v := s.device k
      (v, { s with cache := (k, v) :: s.cache }, 1)

/-- C4: a `set(k, v)` immediately followed by `get(k)` returns `v` with
zero device round-trips — the get is served from the write-through cache
entry, never by re-querying the device. -/
theorem cache_set_then_get (s : CacheState) (k : Nat) (v : Int) :
    cacheGet (cacheSet s k v) k = (v, cacheSet s k v, 0) := by
  simp [cacheGet, cacheSet, assocLookup]

/-! ## Channel-enable dirty tracking (TektronixOscilloscope.h lines
470-472; bodies of `EnableChannel` / `DisableChannel` /
`IsEnableStateDirty` / `FlushChannelEnableStates` are not in the
headers) -/

/-- The driver operations that touch the dirty-enable set
`m_channelEnableStatusDirty`. -/
inductive ChanOp where
  | enable (i : Nat)
  | disable (i : Nat)
  | flush
  deriving DecidableEq, Repr

/-- Modelled from the spec: "every `EnableChannel`/`DisableChannel` call
records the channel index in the dirty-enable set";
"`FlushChannelEnableStates()` clears the set".  The state is the set of
dirty channel indices. -/
def chanOpStep (dirty : List Nat) : ChanOp → List Nat
  | .enable i => i :: dirty
  | .disable i => i :: dirty
  | .flush => []

/-- Run a sequence of operations on the dirty-enable set. -/
def chanOpRun (dirty : List Nat) (ops : List ChanOp) : List Nat :=
  ops.foldl chanOpStep dirty

/-- Modelled from the spec: `IsEnableStateDirty(chan)` tests membership
in the dirty-enable set. -/
def IsEnableStateDirty (dirty : List Nat) (chan : Nat) : Bool :=
  dirty.contains chan

/-- Helper: any operation sequence without a flush preserves membership
in the dirty-enable set (every non-flush operation only inserts). -/
lemma chanOpRun_preserves_mem (i : Nat) :
    ∀ ops : List ChanOp, ChanOp.flush ∉ ops →
      ∀ dirty : List Nat, i ∈ dirty → i ∈ chanOpRun dirty ops := by
  intro ops
  induction ops with
  | nil => intro _ dirty hd; simpa [chanOpRun] using hd
  | cons o rest ih =>
      intro h dirty hd
      have hno : ChanOp.flush ∉ rest := fun hh => h (List.mem_cons_of_mem _ hh)
      have hstep : i ∈ chanOpStep dirty o := by
        cases o with
        | enable j => exact List.mem_cons_of_mem _ hd
        | disable j => exact List.mem_cons_of_mem _ hd
        | flush => exact absurd (List.mem_cons_self _ _) h
      exact ih hno _ hstep

/-- C6: after `EnableChannel(i)` or `DisableChannel(i)`,
`IsEnableStateDirty(i)` is true and stays true across any further
operations that contain no `FlushChannelEnableStates()`; immediately
after a flush, `IsEnableStateDirty(c)` is false for every channel. -/
theorem enable_dirty_until_flush (dirty : List Nat) (i : Nat)
    (op : ChanOp) (hop : op = .enable i ∨ op = .disable i)
    (ops : List ChanOp) (hnoflush : ChanOp.flush ∉ ops) :
    IsEnableStateDirty (chanOpRun (chanOpStep dirty op) ops) i = true ∧
    (∀ c : Nat, IsEnableStateDirty (chanOpStep dirty .flush) c = false) := by
  refine ⟨?_, fun c => rfl⟩
  have hbase : i ∈ chanOpStep dirty op := by
    rcases hop with h | h <;> subst h <;> exact List.mem_cons_self _ _
  have hmem := chanOpRun_preserves_mem i ops hnoflush _ hbase
  exact List.elem_iff.mpr hmem

/-- Witness for C6: channel 2 enabled, then another channel disabled and
re-enabled without a flush — channel 2 stays dirty; a flush clears
channel 2. -/
theorem enable_dirty_until_flush_witness :
    IsEnableStateDirty
      (chanOpRun (chanOpStep [] (.enable 2)) [.disable 5, .enable 5]) 2
      = true ∧
    IsEnableStateDirty (chanOpStep [] .flush) 2 = false := by
  have h := enable_dirty_until_flush [] 2 (.enable 2) (Or.inl rfl)
    [.disable 5, .enable 5] (by decide)
  exact ⟨h.1, h.2 2⟩

/-! ## Waveform preamble decode (TektronixOscilloscope.h lines 236-272;
the body of `ReadPreamble` is not in the headers) -/

/-- Domain tag of a preamble (`mso56_preamble::domain`); per the spec,
unknown enumerants map to an explicit unrecognized value. -/
inductive Domain where
  | time
  | frequency
  | unrecognized
  deriving DecidableEq, Repr

/-- The mutually exclusive numeric interpretation of the two preamble
unions: either the time-domain pair (`xincrement`, `xzero`) or the
frequency-domain pair (`hzbase`, `hzoff`).  `double` fields are embedded
as `Int` (e.g. scaled femtoseconds / millihertz); only selection, not
arithmetic, is at issue. -/
inductive PreambleNumeric where
  | timePair (xincrement xzero : Int)
  | freqPair (hzbase hzoff : Int)
  deriving DecidableEq, Repr

/-- Decoded preamble: domain tag plus the selected numeric pair. -/
structure DecodedPreamble where
  domain : Domain
  numeric : PreambleNumeric
  deriving DecidableEq, Repr

/-- Parse a raw domain subfield; per the spec, unknown enumerants map to
`unrecognized` rather than failing the decode. -/
def parseDomain (s : String) : Domain :=
  if s = "TIME" then .time
  else if s = "FREQUENCY" then .frequency
  else .unrecognized

/-- Modelled from the spec: the body of `ReadPreamble` is not in the
headers.  "select the time-domain or frequency-domain numeric
interpretation based on the domain tag, populating exactly one of the
two union members": the frequency tag selects the frequency pair, any
other tag the time pair, from the same two raw numeric fields (which
share storage in the C union). -/
def decodePreambleNumeric (rawDomain : String) (a b : Int) :
    DecodedPreamble :=
  let d := parseDomain rawDomain
  { domain := d
    numeric := match d with
      | .frequency => .freqPair a b
      | _ => .timePair a b }

/-- Whether the time-domain pair is the meaningful one. -/
def hasTimePair (p : DecodedPreamble) : Bool :=
  match p.numeric with
  | .timePair _ _ => true
  | .freqPair _ _ => false

/-- Whether the frequency-domain pair is the meaningful one. -/
def hasFreqPair (p : DecodedPreamble) : Bool :=
  match p.numeric with
  | .timePair _ _ => false
  | .freqPair _ _ => true

/-- C5: in every decoded preamble exactly one of the two numeric pairs
is meaningful — never both — and which one is selected by the domain
tag: the frequency pair exactly when the tag is `frequency`. -/
theorem preamble_union_exclusive (rawDomain : String) (a b : Int) :
    (hasTimePair (decodePreambleNumeric rawDomain a b)
      = !hasFreqPair (decodePreambleNumeric rawDomain a b)) ∧
    (hasFreqPair (decodePreambleNumeric rawDomain a b)
      = decide ((decodePreambleNumeric rawDomain a b).domain
          = Domain.frequency)) := by
  simp only [decodePreambleNumeric, hasTimePair, hasFreqPair, parseDomain]
  split_ifs <;> simp

/-- Decode failure taxonomy for the curve reader. -/
inductive DecodeError where
  | lengthMismatch
  | shortRead
  deriving DecidableEq, Repr

/-- Curve-decode inputs taken from the preamble: declared point count
(`nr_pt`) and bytes per point (`byte_num`). -/
structure CurvePreamble where
  nr_pt : Nat
  byte_num : Nat
  deriving DecidableEq, Repr

/-- Assemble one sample from its bytes (big-endian accumulate). -/
def combineBytes (bytes : List Nat) : Int :=
  bytes.foldl (fun acc byte => 256 * acc + (byte : Int)) 0

/-- Modelled from the spec: the curve-decode path of
`AcquireDataMSO56` / `ReadPreamble` is not in the headers.  "validate
point count and point format against the subsequently-read binary
block's declared byte length (IEEE-488.2-style length-prefixed block) —
mismatch is a DecodeError, not a silent truncation".  `blockLen` is the
byte count declared by the block's length prefix, `data` the bytes
actually read. -/
def decodeCurve (p : CurvePreamble) (blockLen : Nat) (data : List Nat) :
    Except DecodeError (List Int) :=
  if p.nr_pt * p.byte_num ≠ blockLen then .error .lengthMismatch
  else if data.length ≠ blockLen then .error .shortRead
  else .ok ((List.range p.nr_pt).map
    fun i => combineBytes ((data.drop (i * p.byte_num)).take p.byte_num))

/-- C7: when the declared point count (times the point format's byte
width) is inconsistent with the declared byte length of the binary
block, decode returns a DecodeError; and every successful decode returns
exactly `nr_pt` samples — never a truncated or padded result. -/
theorem decode_length_mismatch_errors (p : CurvePreamble)
    (blockLen : Nat) (data : List Nat) :
    (p.nr_pt * p.byte_num ≠ blockLen →
      decodeCurve p blockLen data = .error .lengthMismatch) ∧
    (∀ out : List Int, decodeCurve p blockLen data = .ok out →
      out.length = p.nr_pt) := by
  constructor
  · intro hne
    simp [decodeCurve, hne]
  · intro out hout
    simp only [decodeCurve] at hout
    split_ifs at hout
    simp only [Except.ok.injEq] at hout
    subst hout
    simp

/-- Witness for C7: a preamble declaring 4 two-byte points against a
block declaring 7 bytes is rejected; against a matching 8-byte block,
exactly 4 samples come back. -/
theorem decode_length_mismatch_errors_witness :
    decodeCurve ⟨4, 2⟩ 7 [0, 1, 0, 2, 0, 3, 0] = .error .lengthMismatch ∧
    ([1, 2, 3, 4] : List Int).length = (4 : Nat) := by
  refine ⟨(decode_length_mismatch_errors ⟨4, 2⟩ 7 [0, 1, 0, 2, 0, 3, 0]).1
    (by decide), ?_⟩
  have h := (decode_length_mismatch_errors ⟨4, 2⟩ 8
    [0, 1, 0, 2, 0, 3, 0, 4]).2 [1, 2, 3, 4] (by rfl)
  exact h

/-! ## Atomic acquisition commit (TektronixOscilloscope.h lines 125, 273;
bodies of `AcquireData` / `AcquireDataMSO56` are not in the headers) -/

/-- Caller-visible acquisition state: the committed waveforms, as
(channel index, waveform payload) pairs.  The payload is abstracted to a
`Nat` identifier; only visibility, not content, is at issue. -/
structure AcqState where
  visible : List (Nat × Nat)
  deriving DecidableEq, Repr

/-- Modelled from the spec: the per-channel read loop of
`AcquireDataMSO56` is not in the headers.  "for each enabled channel it
fetches the binary block, decodes the preamble, ... and deposits the
result into that channel's waveform slot in the pending map"; a failed
fetch/decode (`fetch c = none`) aborts the whole event.  Returns the
pending map for one trigger event, or `none` on any failure. -/
def acquirePending (fetch : Nat → Option Nat) :
    List Nat → Option (List (Nat × Nat))
  | [] => some []
  | c :: rest =>
      match fetch c with
      | none => none
      | some w => (acquirePending fetch rest).map (fun p => (c, w) :: p)

/-- Modelled from the spec: the body of `AcquireData` is not in the
headers.  "after all enabled channels are read, pending waveforms are
committed atomically"; "Failure to read one channel's block ... aborts
the whole acquisition for that trigger event ...; partial per-channel
data is discarded".  Returns the success flag and the new caller-visible
state. -/
def AcquireData (s : AcqState) (fetch : Nat → Option Nat)
    (enabled : List Nat) : Bool × AcqState :=
  match acquirePending fetch enabled with
  | none => (false, s)
  | some pending => (true, ⟨s.visible ++ pending⟩)

/-- Helper: a failed channel makes the whole pending build fail. -/
lemma acquirePending_none_of_fail (fetch : Nat → Option Nat) :
    ∀ enabled : List Nat, (∃ c ∈ enabled, fetch c = none) →
      acquirePending fetch enabled = none := by
  intro enabled
  induction enabled with
  | nil => rintro ⟨c, hc, -⟩; exact absurd hc (List.not_mem_nil c)
  | cons c rest ih =>
      rintro ⟨d, hd, hfail⟩
      rcases List.mem_cons.mp hd with rfl | hd
      · simp [acquirePending, hfail]
      · simp only [acquirePending]
        cases fetch c with
        | none => rfl
        | some w => rw [ih ⟨d, hd, hfail⟩]; rfl

/-- Helper: on an all-successful build, every enabled channel's decoded
waveform is in the pending map. -/
lemma acquirePending_mem_of_ok (fetch : Nat → Option Nat) :
    ∀ (enabled : List Nat) (pending : List (Nat × Nat)),
      acquirePending fetch enabled = some pending →
      ∀ c ∈ enabled, ∃ w, fetch c = some w ∧ (c, w) ∈ pending := by
  intro enabled
  induction enabled with
  | nil => intro pending _ c hc; exact absurd hc (List.not_mem_nil c)
  | cons a rest ih =>
      intro pending hp c hc
      simp only [acquirePending] at hp
      cases ha : fetch a with
      | none => rw [ha] at hp; exact absurd hp (by simp)
      | some w =>
          rw [ha] at hp
          cases hrest : acquirePending fetch rest with
          | none => rw [hrest] at hp; exact absurd hp (by simp)
          | some prest =>
              rw [hrest] at hp
              have hp' : (a, w) :: prest = pending := by simpa using hp
              subst hp'
              rcases List.mem_cons.mp hc with rfl | hc
              · exact ⟨w, ha, List.mem_cons_self _ _⟩
              · obtain ⟨v, hv, hmem⟩ := ih prest hrest c hc
                exact ⟨v, hv, List.mem_cons_of_mem _ hmem⟩

/-- Helper: when every enabled channel's fetch succeeds, building the
pending map succeeds. -/
lemma acquirePending_isSome_of_ok (fetch : Nat → Option Nat) :
    ∀ enabled : List Nat, (∀ c ∈ enabled, (fetch c).isSome) →
      (acquirePending fetch enabled).isSome := by
  intro enabled
  induction enabled with
  | nil => intro _; simp [acquirePending]
  | cons a rest ih =>
      intro hok
      simp only [acquirePending]
      cases ha : fetch a with
      | none =>
          have := hok a (List.mem_cons_self _ _)
          rw [ha] at this; exact absurd this (by simp)
      | some w =>
          have hr := ih (fun d hd => hok d (List.mem_cons_of_mem _ hd))
          cases hrest : acquirePending fetch rest with
          | none => rw [hrest] at hr; exact absurd hr (by simp)
          | some prest => simp

/-- C3: `AcquireData` commits a trigger event's waveforms all together
or not at all — if any enabled channel's fetch/decode fails, the
caller-visible state is exactly the old state (no waveform from the
event becomes visible, partial data is discarded); if every enabled
channel succeeds, every enabled channel's waveform becomes visible. -/
theorem acquire_data_atomic (s : AcqState) (fetch : Nat → Option Nat)
    (enabled : List Nat) :
    ((∃ c ∈ enabled, fetch c = none) →
      AcquireData s fetch enabled = (false, s)) ∧
    ((∀ c ∈ enabled, (fetch c).isSome) →
      ∀ c ∈ enabled, ∃ w, fetch c = some w ∧
        (c, w) ∈ (AcquireData s fetch enabled).2.visible) := by
  constructor
  · intro hfail
    simp [AcquireData, acquirePending_none_of_fail fetch enabled hfail]
  · intro hok c hc
    have hs := acquirePending_isSome_of_ok fetch enabled hok
    cases hp : acquirePending fetch enabled with
    | none => rw [hp] at hs; exact absurd hs (by simp)
    | some pending =>
        obtain ⟨w, hw, hmem⟩ :=
          acquirePending_mem_of_ok fetch enabled pending hp c hc
        refine ⟨w, hw, ?_⟩
        simp [AcquireData, hp, List.mem_append, hmem]

/-- Witness for C3: with channels 1 and 2 enabled, a failure on channel 2
leaves the visible state untouched; with both succeeding, both waveforms
become visible. -/
theorem acquire_data_atomic_witness :
    AcquireData ⟨[(0, 9)]⟩ (fun c => if c = 2 then none else some c)
      [1, 2] = (false, ⟨[(0, 9)]⟩) ∧
    ∃ w, (fun c : Nat => some (c + 10)) 1 = some w ∧
      (1, w) ∈ (AcquireData ⟨[(0, 9)]⟩ (fun c => some (c + 10))
        [1, 2]).2.visible := by
  constructor
  · exact (acquire_data_atomic ⟨[(0, 9)]⟩
      (fun c => if c = 2 then none else some c) [1, 2]).1
      ⟨2, by simp, by simp⟩
  · exact (acquire_data_atomic ⟨[(0, 9)]⟩ (fun c => some (c + 10))
      [1, 2]).2 (fun c _ => by simp) 1 (by simp)

/-! ## Trigger translation (TektronixOscilloscope.h lines 376-387;
bodies of the `Pull*Trigger` / `Push*Trigger` methods are not in the
headers) -/

/-- Trigger edge slope. -/
inductive Slope where
  | rising
  | falling
  | anyEdge
  deriving DecidableEq, Repr

/-- The supported abstract trigger variants (EdgeTrigger,
PulseWidthTrigger, DropoutTrigger, RuntTrigger, SlewRateTrigger,
WindowTrigger): tagged records of source channel, level(s),
slope/polarity and timing thresholds.  Levels are embedded as `Int`
(millivolts), times as `Int` (picoseconds), condition selectors as
`Nat` codes. -/
inductive Trigger where
  | edge (source : Nat) (level : Int) (slope : Slope)
  | pulseWidth (source : Nat) (level : Int) (slope : Slope)
      (lowerBound upperBound : Int) (condition : Nat)
  | dropout (source : Nat) (level : Int) (slope : Slope)
      (dropoutTime : Int)
  | runt (source : Nat) (lowerLevel upperLevel : Int) (width : Int)
      (condition : Nat)
  | slewRate (source : Nat) (lowerLevel upperLevel : Int)
      (interval : Int) (condition : Nat)
  | window (source : Nat) (lowerLevel upperLevel : Int)
  deriving DecidableEq, Repr

/-- Device-side trigger kind selector. -/
inductive TrigKind where
  | edge
  | pulseWidth
  | dropout
  | runt
  | slewRate
  | window
  deriving DecidableEq, Repr

/-- Modelled from the spec: the device's trigger registers as read and
written by the `Pull*`/`Push*` command sequences.  Unused registers for
a given kind hold don't-care values. -/
structure DeviceTriggerState where
  kind : TrigKind
  source : Nat
  level : Int
  level2 : Int
  slope : Slope
  lowerInterval : Int
  upperInterval : Int
  condition : Nat
  deriving DecidableEq, Repr

/-- Modelled from the spec: the hardware level range; Push "must
clamp/quantize to the nearest supported value rather than fail". -/
def clampLevel (v : Int) : Int :=
  if v < -5000 then -5000 else if v > 5000 then 5000 else v

/-- Modelled from the spec: hardware timing thresholds are nonnegative;
Push clamps rather than fails. -/
def clampTime (v : Int) : Int :=
  if v < 0 then 0 else v

/-- Modelled from the spec: `Pull<Kind>()` "reads the device's current
trigger configuration and constructs the matching abstract record". -/
def PullTrigger (d : DeviceTriggerState) : Trigger :=
  match d.kind with
  | .edge => .edge d.source d.level d.slope
  | .pulseWidth =>
      .pulseWidth d.source d.level d.slope d.lowerInterval
        d.upperInterval d.condition
  | .dropout => .dropout d.source d.level d.slope d.lowerInterval
  | .runt => .runt d.source d.level d.level2 d.lowerInterval d.condition
  | .slewRate =>
      .slewRate d.source d.level d.level2 d.lowerInterval d.condition
  | .window => .window d.source d.level d.level2

/-- Modelled from the spec: `Push<Kind>(trigger)` "emits the device
command sequence that realizes the given abstract trigger", clamping
each field to the hardware's supported range. -/
def PushTrigger : Trigger → DeviceTriggerState
  | .edge s l sl => ⟨.edge, s, clampLevel l, 0, sl, 0, 0, 0⟩
  | .pulseWidth s l sl lo hi c =>
      ⟨.pulseWidth, s, clampLevel l, 0, sl, clampTime lo, clampTime hi, c⟩
  | .dropout s l sl t => ⟨.dropout, s, clampLevel l, 0, sl, clampTime t, 0, 0⟩
  | .runt s ll ul w c =>
      ⟨.runt, s, clampLevel ll, clampLevel ul, .rising, clampTime w, 0, c⟩
  | .slewRate s ll ul iv c =>
      ⟨.slewRate, s, clampLevel ll, clampLevel ul, .rising, clampTime iv, 0, c⟩
  | .window s ll ul => ⟨.window, s, clampLevel ll, clampLevel ul, .rising, 0, 0, 0⟩

/-- The documented clamped form of a trigger: every level and timing
field moved to the nearest hardware-supported value. -/
def clampTrigger : Trigger → Trigger
  | .edge s l sl => .edge s (clampLevel l) sl
  | .pulseWidth s l sl lo hi c =>
      .pulseWidth s (clampLevel l) sl (clampTime lo) (clampTime hi) c
  | .dropout s l sl t => .dropout s (clampLevel l) sl (clampTime t)
  | .runt s ll ul w c =>
      .runt s (clampLevel ll) (clampLevel ul) (clampTime w) c
  | .slewRate s ll ul iv c =>
      .slewRate s (clampLevel ll) (clampLevel ul) (clampTime iv) c
  | .window s ll ul => .window s (clampLevel ll) (clampLevel ul)

/-- Device states reachable through Push: every level register is in
the supported range and every timing register nonnegative. -/
def DeviceInvariant (d : DeviceTriggerState) : Prop :=
  -5000 ≤ d.level ∧ d.level ≤ 5000 ∧
  -5000 ≤ d.level2 ∧ d.level2 ≤ 5000 ∧
  0 ≤ d.lowerInterval ∧ 0 ≤ d.upperInterval

instance (d : DeviceTriggerState) : Decidable (DeviceInvariant d) :=
  inferInstanceAs (Decidable (_ ∧ _))

lemma clampLevel_of_inRange {v : Int} (h1 : -5000 ≤ v) (h2 : v ≤ 5000) :
    clampLevel v = v := by
  unfold clampLevel; split_ifs <;> omega

lemma clampTime_of_nonneg {v : Int} (h : 0 ≤ v) : clampTime v = v := by
  unfold clampTime; split_ifs <;> omega

/-- C8: for every supported trigger kind, pushing the trigger obtained
from a pull reproduces an equivalent device state, so pulling again
returns the original trigger; and in general a pushed trigger pulls
back as exactly its clamped/quantized nearest supported form. -/
theorem trigger_pull_push_roundtrip (t : Trigger)
    (d : DeviceTriggerState) (hinv : DeviceInvariant d) :
    PullTrigger (PushTrigger t) = clampTrigger t ∧
    PullTrigger (PushTrigger (PullTrigger d)) = PullTrigger d := by
  obtain ⟨h1, h2, h3, h4, h5, h6⟩ := hinv
  constructor
  · cases t <;> rfl
  · cases hk : d.kind <;>
      simp [PullTrigger, PushTrigger, hk, clampLevel_of_inRange h1 h2,
        clampLevel_of_inRange h3 h4, clampTime_of_nonneg h5,
        clampTime_of_nonneg h6]

/-- Witness for C8: an out-of-range runt trigger pushes as its clamped
form, and a pull from an in-range device state round-trips exactly. -/
theorem trigger_pull_push_roundtrip_witness :
    PullTrigger (PushTrigger (.runt 1 (-9000) 200 (-5) 2)) =
      Trigger.runt 1 (-5000) 200 0 2 ∧
    PullTrigger (PushTrigger (PullTrigger
      ⟨.window, 3, -100, 2500, .rising, 0, 0, 0⟩)) =
      PullTrigger ⟨.window, 3, -100, 2500, .rising, 0, 0, 0⟩ := by
  have h := trigger_pull_push_roundtrip (.runt 1 (-9000) 200 (-5) 2)
    ⟨.window, 3, -100, 2500, .rising, 0, 0, 0⟩ (by decide)
  exact ⟨by rw [h.1]; rfl, h.2⟩

end Scopehal
